import Mathlib

/-
Verification development for the IBM python-json-log-formatter repository.

The subject of the claims is the record-enrichment filter
(src/python_json_log_formatter/context_filter.py, class ContextFilter).
This file gives a shallow embedding of that code:

* Python dicts become association lists (`Dict`), with `dictFind` giving
  the dict lookup semantics and `insertVal` the semantics of a single
  dict assignment (replace the binding if the key exists, append
  otherwise).  `dictUpdate` is dict.update: the right-hand pairs are
  assigned one by one, left to right.
* Python strings become `List Char`; slicing (`pySlice`) follows the
  Python slice rules, including negative index normalisation.
* Log records become the structure `LogRecord` holding exactly the
  attributes the filter reads: msg, levelno, levelname, pathname,
  lineno, args (the per-call dict argument), exc_info and the extra
  attributes injected via the `extra=` keyword.
* Values stored in a dict are modelled by `Value`: strings, ints, None,
  and `obj`, an opaque non-JSON-serialisable Python object.  json.dumps
  raising on such an object is the concrete realisation of an
  "unexpected exception inside the pipeline".
* Emission via LOGGER.handle is modelled as appending the finalised
  event (the record dict with its message) to an event list; the
  `_StopLogging` control-flow exception becomes the `handled` result
  constructors, and the outer try/except of ContextFilter.filter is the
  case analysis in `filterRecord`.
* The process environment is an explicit association list `Env`;
  os.getcwd() is an explicit segment list passed to the path check.
-/

/-- A Python value as far as the filter inspects it: strings, ints, None,
and `obj`, an opaque object that json.dumps cannot serialise. -/
inductive Value where
  | str (s : List Char)
  | int (i : Int)
  | vnone
  | obj
  deriving DecidableEq, Repr

/-- A Python dict, as an insertion-ordered association list. -/
abbrev Dict := List (String × Value)

/-- Dict lookup: the first binding of the key wins (Python dicts hold at
most one binding per key; lists produced by the operations below keep
that invariant when their inputs have it). -/
def dictFind : Dict → String → Option Value
  | [], _ => none
  | p :: t, k => if p.1 = k then some p.2 else dictFind t k

/-- One Python dict assignment `d[k] = v`: replace the first binding of
`k` if present, append a new binding otherwise. -/
def insertVal : Dict → String → Value → Dict
  | [], k, v => [(k, v)]
  | p :: t, k, v => if p.1 = k then (k, v) :: t else p :: insertVal t k v

/-- Python dict.pop(k, None): drop every binding of the key. -/
def removeKey : Dict → String → Dict
  | [], _ => []
  | p :: t, k => if p.1 = k then removeKey t k else p :: removeKey t k

/-- Python d.update(e): assign the pairs of `e` into `d` one by one. -/
def dictUpdate : Dict → Dict → Dict
  | d, [] => d
  | d, p :: t => dictUpdate (insertVal d p.1 p.2) t

/-- The keys of a dict, in order. -/
def dictKeys (d : Dict) : List String := d.map Prod.fst

/-- The Python-dict invariant: every key is bound at most once. -/
def NodupKeys (d : Dict) : Prop := (dictKeys d).Nodup

instance : DecidablePred NodupKeys := fun d =>
  inferInstanceAs (Decidable (dictKeys d).Nodup)

/-- Which values json.dumps can serialise in this model. -/
def serialVal : Value → Bool
  | .obj => false
  | _ => true

/-- json.dumps succeeds on the dict exactly when every value is
serialisable. -/
def serializableDict (d : Dict) : Bool := d.all fun p => serialVal p.2

/-- The process environment (os.getenv source). -/
abbrev Env := List (String × List Char)

/-- os.getenv(key, None). -/
def getEnvVal : Env → String → Option (List Char)
  | [], _ => none
  | p :: t, k => if p.1 = k then some p.2 else getEnvVal t k

/- ------------------------------------------------------------------ -/
/- Constants from the logging module and from context_filter.py        -/
/- ------------------------------------------------------------------ -/

/-- logging.WARNING -/
def WARNING : Int := 30
/-- logging.ERROR -/
def ERROR : Int := 40
/-- logging.CRITICAL -/
def CRITICAL : Int := 50

/-- ContextFilter.__message_key -/
def MESSAGE_KEY : String := "message"
/-- ContextFilter.__part_key -/
def PART_KEY : String := "part_nr"
/-- ContextFilter.__job_remaining_retries -/
def JOB_REMAINING_RETRIES : String := "job_remaining_retries"
/-- ContextFilter.__job_retry_count_env -/
def JOB_RETRY_COUNT_ENV : String := "JOB_INDEX_RETRY_COUNT"
/-- ContextFilter.__job_retry_limit_env -/
def JOB_RETRY_LIMIT_ENV : String := "JOB_RETRY_LIMIT"

/-- ContextFilter.__included_env_vars -/
def includedEnvVars : List String :=
  ["ENVIRONMENT", "env", "JOB_INDEX", JOB_RETRY_COUNT_ENV, "JOB_MODE",
   JOB_RETRY_LIMIT_ENV, "CE_DOMAIN", "CE_JOB", "CE_JOBRUN",
   "CE_SUBDOMAIN", "HOSTNAME", "BRANCH_NAME", "TARGET_BRANCH_NAME"]

/- ------------------------------------------------------------------ -/
/- Text helpers (Python string operations used by the filter)          -/
/- ------------------------------------------------------------------ -/

/-- Does `hay` start with `needle`? -/
def listStarts : List Char → List Char → Bool
  | [], _ => true
  | _ :: _, [] => false
  | n :: ns, h :: hs => n == h && listStarts ns hs

/-- Python substring containment: `needle in hay`. -/
def containsSub : List Char → List Char → Bool
  | n, [] => n.isEmpty
  | n, c :: t => listStarts n (c :: t) || containsSub n t

/-- Split a path string on the separator, dropping empty components
(the normalisation pathlib.Path applies to a path string). -/
def splitSegsAux : List Char → List Char → List (List Char)
  | cur, [] => if cur.isEmpty then [] else [cur.reverse]
  | cur, c :: t =>
    if c = '/' then
      if cur.isEmpty then splitSegsAux [] t else cur.reverse :: splitSegsAux [] t
    else splitSegsAux (c :: cur) t

/-- The segments of a path string. -/
def splitSegs (p : List Char) : List (List Char) := splitSegsAux [] p

/-- Is the segment list `a` an initial segment of `b`
(pathlib Path.is_relative_to on normalised absolute paths)? -/
def isSegPre : List (List Char) → List (List Char) → Bool
  | [], _ => true
  | _ :: _, [] => false
  | a :: as, b :: bs => a == b && isSegPre as bs

/-- Python slice s[i:j] with the slice index normalisation rules. -/
def pySlice (s : List Char) (i j : Int) : List Char :=
  let n : Int := s.length
  let i' : Int := if i < 0 then max 0 (n + i) else min i n
  let j' : Int := if j < 0 then max 0 (n + j) else min j n
  (s.take j'.toNat).drop i'.toNat

/-- Python "\n".join(rows). -/
def joinNl : List (List Char) → List Char
  | [] => []
  | [r] => r
  | r :: rs => r ++ '\n' :: joinNl rs

/-- str(i) for a Python int. -/
def intToStr (i : Int) : List Char := (toString i).toList

/-- The f-string part marker of __log_too_long_message: "<n>: ". -/
def partMarker (n : Int) : List Char := intToStr n ++ [':', ' ']

/- ------------------------------------------------------------------ -/
/- The log record and the filter configuration                         -/
/- ------------------------------------------------------------------ -/

/-- A logging.LogRecord, restricted to the attributes the filter reads.
`args` is the per-call dict argument (None or a dict), `excInfo` the
formatted stack-trace lines that traceback.format_exception would
return for the carried exception (None when no exception is attached),
and `extraAttrs` the attributes injected through the `extra=` keyword
(they live directly in record.__dict__). -/
structure LogRecord where
  msg : List Char
  levelno : Int
  levelname : List Char
  pathname : List Char
  lineno : Int
  args : Option Dict
  excInfo : Option (List (List Char))
  extraAttrs : Dict
  logFormattingMessage : Option (List Char) := none
  deriving DecidableEq, Repr

/-- The constructor arguments of ContextFilter. -/
structure Config where
  disableLogFormatting : Bool := false
  splitThreshold : Int := 1000
  exTraceAsNewMessage : Bool := false
  deriving DecidableEq, Repr

/-- record.__dict__.copy(): the standard attributes in insertion order,
then the extra= attributes. The value stored under "args" when a dict
argument is present is the dict object itself; it is removed again by
__add_log_record_info before it can be serialised, so it is modelled by
the opaque `obj`. Same for the exception tuple under "exc_info". -/
def recordDict (r : LogRecord) : Dict :=
  dictUpdate
    [("msg", .str r.msg),
     ("levelname", .str r.levelname),
     ("levelno", .int r.levelno),
     ("pathname", .str r.pathname),
     ("lineno", .int r.lineno),
     ("args", match r.args with | some _ => .obj | none => .vnone),
     ("exc_info", match r.excInfo with | some _ => .obj | none => .vnone)]
    r.extraAttrs

/-- ContextFilter.__add_log_record_info (the excluded-keys list is empty
by default): copy the record dict, set "level" and the message key, drop
"msg", then fold a dict args argument in and drop "args". -/
def addLogRecordInfo (r : LogRecord) : Dict :=
  let d := recordDict r
  let d := insertVal d "level" (.str r.levelname)
  let d := insertVal d MESSAGE_KEY (.str r.msg)
  let d := removeKey d "msg"
  match r.args with
  | some ad => removeKey (dictUpdate d ad) "args"
  | none => d

/-- ContextFilter.__check_is_imported_module. `cwd` is the segment list
of the (absolute) working directory. A relative record path is resolved
against the working directory; a path outside the working directory, or
one containing the venv marker, is an imported module. The substring
test is on the original path string, as in the source. -/
def checkIsImportedModule (cwd : List (List Char)) (pathname : List Char) : Bool :=
  let segs := splitSegs pathname
  let resolved := if listStarts ['/'] pathname then segs else cwd ++ segs
  if !isSegPre cwd resolved then true
  else if containsSub "venv".toList pathname then true
  else false

/-- ContextFilter.__filter_imported_modules: below ERROR, or inside the
working tree, nothing happens; otherwise the original level is saved,
the record is downgraded to WARNING and the filter marker is set. The
path inspection is modelled total, so the except branch that records
"Failed: ..." is unreachable in the model. -/
def filterImportedModules (cwd : List (List Char)) (r : LogRecord) :
    Dict × LogRecord :=
  if r.levelno < ERROR then ([], r)
  else if !checkIsImportedModule cwd r.pathname then ([], r)
  else
    ([("original_levelno", .int r.levelno),
      ("original_levelname", .str r.levelname),
      ("levelno", .int WARNING),
      ("levelname", .str "WARNING".toList),
      ("filter_imported_modules", .str "Filtered".toList)],
     { r with levelno := WARNING, levelname := "WARNING".toList })

/-- ContextFilter.__check_failed_pipeline_status. -/
def checkFailedPipelineStatus (r : LogRecord) : Dict :=
  if CRITICAL ≤ r.levelno then
    [("job_status", .str "failed".toList),
     ("pipeline_status", .str "failed".toList)]
  else []

/-- The message value of the working dict; the pipeline keeps a string
under the message key from __add_log_record_info on. -/
def getMsgVal (d : Dict) : Value := (dictFind d MESSAGE_KEY).getD (.str [])

/-- The message string of the working dict. -/
def getMsgStr (d : Dict) : List Char :=
  match dictFind d MESSAGE_KEY with
  | some (.str s) => s
  | _ => []

/-- Outcome of ContextFilter.__log_available_exec_info: either the
pipeline continues with an updated dict and record, or the handler has
already emitted the listed events and raised _StopLogging. -/
inductive ExcResult where
  | goOn (d : Dict) (r : LogRecord)
  | handled (events : List Dict) (r : LogRecord)
  deriving DecidableEq, Repr

/-- ContextFilter.__log_available_exec_info. With exception info on the
record, the "exc_info" entry is dropped from the dict and cleared on the
record. Default mode appends the joined trace to the message. In
trace-as-new-message mode the accumulated dict is emitted once with the
original message and once per trace row, and _StopLogging is raised.
An emitted event is the record dict together with its message. -/
def logAvailableExecInfo (exTraceAsNewMessage : Bool) (d : Dict)
    (r : LogRecord) : ExcResult :=
  match r.excInfo with
  | none => .goOn d r
  | some rows =>
    let d1 := removeKey d "exc_info"
    let r1 := { r with excInfo := none }
    if !exTraceAsNewMessage then
      let oldMsg := getMsgStr d1
      let newMsg := oldMsg ++ '\n' :: joinNl rows
      .goOn (insertVal d1 MESSAGE_KEY (.str newMsg)) r1
    else
      let msgVal := getMsgVal d1
      let d2 := removeKey d1 MESSAGE_KEY
      let first := insertVal d2 MESSAGE_KEY msgVal
      let rest := rows.map fun row => insertVal d2 MESSAGE_KEY (.str row)
      .handled (first :: rest) r1

/-- The while loop of ContextFilter.__log_too_long_message. `fuel`
bounds the number of iterations; the caller passes the message length,
which suffices whenever every generated part marker is shorter than the
threshold (each iteration then consumes at least one character). A
`none` result means the Python loop does not finish within that many
iterations. -/
def splitGo (th : Int) (msg : List Char) (base : Dict) :
    Nat → Int → Int → Option (List Dict)
  | 0, _, oldIndex =>
    if oldIndex < (msg.length : Int) then none else some []
  | fuel + 1, partNr, oldIndex =>
    if oldIndex < (msg.length : Int) then
      let n := partNr + 1
      let marker := partMarker n
      let idx := oldIndex + th - (marker.length : Int)
      let ev := insertVal base MESSAGE_KEY (.str (marker ++ pySlice msg oldIndex idx))
      match splitGo th msg base fuel n idx with
      | some evs => some (ev :: evs)
      | none => none
    else some []

/-- The starting part counter: dict.get("part_nr", 0). -/
def getPartNr (d : Dict) : Int :=
  match dictFind d PART_KEY with
  | some (.int i) => i
  | _ => 0

/-- Outcome of ContextFilter.__log_too_long_message. -/
inductive SplitResult where
  | goOn (d : Dict)
  | handled (events : List Dict)
  deriving DecidableEq, Repr

/-- ContextFilter.__log_too_long_message: a message at most the
threshold passes through unchanged; a longer one is popped and emitted
in marker-tagged chunks, after which _StopLogging is raised. -/
def logTooLongMessage (th : Int) (d : Dict) : Option SplitResult :=
  let msg := getMsgStr d
  if (msg.length : Int) ≤ th then some (.goOn d)
  else
    let n0 := getPartNr d
    let base := removeKey d MESSAGE_KEY
    match splitGo th msg base msg.length n0 0 with
    | some evs => some (.handled evs)
    | none => none

/-- The first four stages of ContextFilter.filter: the context copy,
then the imported-module downgrade dict, the record info and the
pipeline status are merged in that order; the downgraded record is
threaded through. -/
def enrich (cwd : List (List Char)) (ctx : Dict) (r : LogRecord) :
    Dict × LogRecord :=
  let fr := filterImportedModules cwd r
  let m1 := dictUpdate ctx fr.1
  let m2 := dictUpdate m1 (addLogRecordInfo fr.2)
  let m3 := dictUpdate m2 (checkFailedPipelineStatus fr.2)
  (m3, fr.2)

/-- The serialised JSON line (escape sequences are not modelled; no
claim depends on the rendered text, only on whether json.dumps raises). -/
def renderValue : Value → List Char
  | .str s => '"' :: s ++ ['"']
  | .int i => intToStr i
  | .vnone => "null".toList
  | .obj => []

/-- One-line JSON rendering of the dict. -/
def jsonText (d : Dict) : List Char :=
  '\x7b' :: (joinNl (d.map fun p => '"' :: p.1.toList ++ "\": ".toList ++ renderValue p.2)) ++ ['\x7d']

/-- The outcome of one ContextFilter.filter call: the events emitted
through LOGGER.handle inside the call, the boolean returned to the
logging framework, the (possibly mutated) record, and the fully merged
dict when the single-emission path completed (None when _StopLogging or
a serialisation error cut it short). -/
structure FilterResult where
  events : List Dict
  ret : Bool
  record : LogRecord
  finalDict : Option Dict
  deriving DecidableEq, Repr

/-- ContextFilter.filter. The try block runs the five stages; a
_StopLogging from the exception or splitting stage yields False with
the events already emitted; any other internal failure (here: json.dumps
on a non-serialisable value) is swallowed and True is returned with the
record message untouched. A `none` result models the split loop never
terminating. -/
def filterRecord (cfg : Config) (cwd : List (List Char)) (ctx : Dict)
    (r : LogRecord) : Option FilterResult :=
  let e := enrich cwd ctx r
  match logAvailableExecInfo cfg.exTraceAsNewMessage e.1 e.2 with
  | .handled evs r2 => some ⟨evs, false, r2, none⟩
  | .goOn d r2 =>
    match logTooLongMessage cfg.splitThreshold d with
    | none => none
    | some (.handled evs) => some ⟨evs, false, r2, none⟩
    | some (.goOn m5) =>
      if serializableDict m5 then
        if !cfg.disableLogFormatting then
          some ⟨[], true, { r2 with msg := jsonText m5 }, some m5⟩
        else
          some ⟨[], true, { r2 with logFormattingMessage := some (jsonText m5) }, some m5⟩
      else
        some ⟨[], true, r2, none⟩

/- ------------------------------------------------------------------ -/
/- Context store operations                                            -/
/- ------------------------------------------------------------------ -/

/-- The loop body of ContextFilter.__add_selected_env_vars_to_context:
walk the whitelist; a truthy environment value is added unless the user
context already binds the key (then a warning is logged and the env
value is skipped). -/
def envVarsMerge (env : Env) (ctx : Dict) : List String → Dict → Dict
  | [], acc => acc
  | key :: ks, acc =>
    match getEnvVal env key with
    | some v =>
      if v.isEmpty then envVarsMerge env ctx ks acc
      else if (dictFind ctx key).isSome then envVarsMerge env ctx ks acc
      else envVarsMerge env ctx ks (insertVal acc key (.str v))
    | none => envVarsMerge env ctx ks acc

/-- ContextFilter.__add_selected_env_vars_to_context. -/
def addSelectedEnvVars (env : Env) (ctx : Dict) : Dict :=
  envVarsMerge env ctx includedEnvVars ctx

/-- Python int(s): optional surrounding spaces, an optional sign, then
at least one digit. -/
def parseDigits : List Char → Option Nat
  | [] => none
  | ds =>
    if ds.all Char.isDigit then
      some (ds.foldl (fun n c => 10 * n + (c.toNat - '0'.toNat)) 0)
    else none

/-- int(s) for Python strings, None when int() would raise ValueError. -/
def pyInt (s : List Char) : Option Int :=
  let t := ((s.dropWhile (· = ' ')).reverse.dropWhile (· = ' ')).reverse
  match t with
  | '-' :: ds => (parseDigits ds).map fun n => -(n : Int)
  | '+' :: ds => (parseDigits ds).map fun n => (n : Int)
  | ds => (parseDigits ds).map fun n => (n : Int)

/-- Python truthiness of an optional string (getenv result): present and
non-empty. -/
def truthyOpt : Option (List Char) → Bool
  | some s => !s.isEmpty
  | none => false

/-- ContextFilter.__calculate_remaining_job_retries. Returns the
computed dict and whether the warning branch (the except clause around
the int() conversions) ran. The function never propagates an error. -/
def calculateRemainingJobRetries (env : Env) : Dict × Bool :=
  let c := getEnvVal env JOB_RETRY_COUNT_ENV
  let l := getEnvVal env JOB_RETRY_LIMIT_ENV
  if truthyOpt c && truthyOpt l then
    match pyInt (c.getD []), pyInt (l.getD []) with
    | some ci, some li =>
      ([(JOB_REMAINING_RETRIES, .str (intToStr (li - ci)))], false)
    | _, _ => ([], true)
  else ([], false)

/-- ContextFilter.update_context: merge the whitelisted environment
variables into the new partial context, overwrite the remaining-retries
entry, then assign the result into the stored context. -/
def updateContext (env : Env) (store : Dict) (newCtx : Dict) : Dict :=
  let nd := addSelectedEnvVars env newCtx
  let nd := dictUpdate nd (calculateRemainingJobRetries env).1
  dictUpdate store nd

/-- ContextFilter.__init__: start from an empty store and run
update_context on the caller context. -/
def initContext (env : Env) (ctx : Dict) : Dict := updateContext env [] ctx

/-- The per-call args dict of a record (empty when record.args is None). -/
def argsDict (r : LogRecord) : Dict := r.args.getD []

/- ------------------------------------------------------------------ -/
/- Concrete fixtures used by witnesses and counterexamples             -/
/- ------------------------------------------------------------------ -/

/-- A plain INFO record from inside the working tree, with no args, no
exception and no extra attributes. -/
def plainRec (m : List Char) : LogRecord :=
  { msg := m, levelno := 20, levelname := "INFO".toList,
    pathname := "/app/x.py".toList, lineno := 1, args := none,
    excInfo := none, extraAttrs := [] }

/-- A working directory for the examples: /app. -/
def cwd0 : List (List Char) := ["app".toList]

/-- A record with message `m` carrying an exception whose formatted
trace has the two rows `l1` and `l2`, and no args or extra attributes. -/
def mkExcRec (m l1 l2 : List Char) (lvl : Int) (lname path : List Char)
    (ln : Int) : LogRecord :=
  { msg := m, levelno := lvl, levelname := lname, pathname := path,
    lineno := ln, args := none, excInfo := some [l1, l2], extraAttrs := [] }

/-- A record whose extra attribute holds a non-JSON-serialisable object,
so json.dumps raises inside the filter. -/
def recUnserializable : LogRecord :=
  { plainRec ['m'] with extraAttrs := [("blob", Value.obj)] }

/-- An ERROR record from outside the working tree whose per-call args
redefine the filter marker key. -/
def recC4cex : LogRecord :=
  { plainRec ['m'] with
    levelno := 40
    levelname := "ERROR".toList
    pathname := "/usr/lib/mod.py".toList
    args := some [("filter_imported_modules", Value.str "no".toList)] }

/-- An INFO record whose per-call args inject the failed-status keys. -/
def recC7cex : LogRecord :=
  { plainRec ['m'] with
    args := some [("job_status", Value.str "failed".toList),
                  ("pipeline_status", Value.str "failed".toList)] }

/-- A record used in the C2 witness: INFO from inside the tree with a
distinctive line number. -/
def recC2w : LogRecord := { plainRec ['m'] with lineno := 7 }

/-- A CRITICAL record from inside the working tree. -/
def recCrit : LogRecord :=
  { plainRec ['m'] with
    levelno := 50
    levelname := "CRITICAL".toList }

/-- An ERROR record from outside the working tree, with no args and no
extra attributes. -/
def recImported : LogRecord :=
  { plainRec ['m'] with
    levelno := 40
    levelname := "ERROR".toList
    pathname := "/usr/lib/mod.py".toList }

/-- The enrichment dict that the first four stages produce for
`plainRec m` with an empty context (checked by `rfl` in the proofs). -/
def mLit (m : List Char) : Dict :=
  [("levelname", .str "INFO".toList), ("levelno", .int 20),
   ("pathname", .str "/app/x.py".toList), ("lineno", .int 1),
   ("args", .vnone), ("exc_info", .vnone),
   ("level", .str "INFO".toList), ("message", .str m)]

/-- `mLit m` with the popped message key removed, the dict each split
part event is built from. -/
def baseLit (m : List Char) : Dict := removeKey (mLit m) MESSAGE_KEY

/- ------------------------------------------------------------------ -/
/- Dictionary toolbox                                                  -/
/- ------------------------------------------------------------------ -/

theorem dictKeys_cons (p : String × Value) (t : Dict) :
    dictKeys (p :: t) = p.1 :: dictKeys t := rfl

theorem dictFind_insertVal (d : Dict) (k : String) (v : Value) (k' : String) :
    dictFind (insertVal d k v) k' = if k' = k then some v else dictFind d k' := by
  induction d with
  | nil =>
    simp only [insertVal, dictFind]
    by_cases h : k' = k
    · simp [h]
    · have h2 : ¬ k = k' := fun hh => h hh.symm
      simp [h, h2]
  | cons p t ih =>
    simp only [insertVal]
    by_cases hp : p.1 = k
    · simp only [if_pos hp, dictFind]
      by_cases hk : k' = k
      · simp [hk]
      · have h2 : ¬ k = k' := fun hh => hk hh.symm
        simp [hk, h2, hp]
    · simp only [if_neg hp, dictFind, ih]
      by_cases hk : k' = k
      · simp [hk, hp]
      · simp [hk]

theorem dictFind_removeKey (d : Dict) (k k' : String) :
    dictFind (removeKey d k) k' = if k' = k then none else dictFind d k' := by
  induction d with
  | nil => simp [removeKey, dictFind]
  | cons p t ih =>
    by_cases hp : p.1 = k
    · simp only [removeKey, if_pos hp]
      rw [ih]
      by_cases hk : k' = k
      · simp [hk]
      · have h3 : ¬ p.1 = k' := fun hh => hk (hh.symm.trans hp)
        simp [hk, dictFind, h3]
    · simp only [removeKey, if_neg hp, dictFind]
      by_cases hq : p.1 = k'
      · have h3 : ¬ k' = k := fun hh => hp (hq.trans hh)
        simp [hq, h3]
      · simp [hq, ih]

theorem dictFind_eq_none_iff (d : Dict) (k : String) :
    dictFind d k = none ↔ ∀ p ∈ d, p.1 ≠ k := by
  induction d with
  | nil => simp [dictFind]
  | cons p t ih =>
    by_cases h : p.1 = k
    · simp [dictFind, h]
    · simp [dictFind, h, ih]

theorem dictFind_dictUpdate_of_none (e : Dict) (d : Dict) (k : String)
    (h : dictFind e k = none) :
    dictFind (dictUpdate d e) k = dictFind d k := by
  induction e generalizing d with
  | nil => simp [dictUpdate]
  | cons p t ih =>
    have hp : ¬ p.1 = k := by
      intro hh
      simp [dictFind, hh] at h
    have ht : dictFind t k = none := by
      simpa [dictFind, hp] using h
    simp only [dictUpdate]
    rw [ih _ ht, dictFind_insertVal]
    have h2 : ¬ k = p.1 := fun hh => hp hh.symm
    simp [h2]

theorem keys_insertVal (d : Dict) (k : String) (v : Value) :
    dictKeys (insertVal d k v) =
      if (dictFind d k).isSome then dictKeys d else dictKeys d ++ [k] := by
  induction d with
  | nil => simp [insertVal, dictKeys, dictFind]
  | cons p t ih =>
    by_cases h : p.1 = k
    · simp [insertVal, h, dictKeys_cons, dictFind]
    · simp only [insertVal, if_neg h, dictKeys_cons, ih, dictFind, h, if_false]
      by_cases h2 : (dictFind t k).isSome
      · simp [h2]
      · simp [h2]

theorem nodupKeys_insertVal (d : Dict) (k : String) (v : Value)
    (h : NodupKeys d) : NodupKeys (insertVal d k v) := by
  unfold NodupKeys at *
  rw [keys_insertVal]
  by_cases h2 : (dictFind d k).isSome
  · simpa [h2]
  · have hk : ∀ p ∈ d, p.1 ≠ k :=
      (dictFind_eq_none_iff d k).mp (Option.not_isSome_iff_eq_none.mp h2)
    rw [if_neg h2, List.nodup_append]
    refine ⟨h, List.nodup_singleton k, fun a ha hb => ?_⟩
    simp only [List.mem_singleton] at hb
    subst hb
    obtain ⟨p, hp, hpa⟩ := List.mem_map.mp ha
    exact hk p hp hpa

theorem nodupKeys_dictUpdate (d e : Dict) (h : NodupKeys d) :
    NodupKeys (dictUpdate d e) := by
  induction e generalizing d with
  | nil => simpa [dictUpdate]
  | cons p t ih => exact ih _ (nodupKeys_insertVal _ _ _ h)

theorem keys_removeKey_sublist (d : Dict) (k : String) :
    (dictKeys (removeKey d k)).Sublist (dictKeys d) := by
  induction d with
  | nil => simp [removeKey, dictKeys]
  | cons p t ih =>
    by_cases h : p.1 = k
    · simp only [removeKey, if_pos h, dictKeys_cons]
      exact ih.trans (List.sublist_cons_self _ _)
    · simpa [removeKey, h, dictKeys_cons] using ih.cons₂ p.1

theorem nodupKeys_removeKey (d : Dict) (k : String) (h : NodupKeys d) :
    NodupKeys (removeKey d k) :=
  (keys_removeKey_sublist d k).nodup h

theorem dictFind_dictUpdate_of_some (e : Dict) (d : Dict) (k : String)
    (v : Value) (hn : NodupKeys e) (h : dictFind e k = some v) :
    dictFind (dictUpdate d e) k = some v := by
  induction e generalizing d with
  | nil => simp [dictFind] at h
  | cons p t ih =>
    by_cases hp : p.1 = k
    · have hv : p.2 = v := by
        have := h
        simp only [dictFind, if_pos hp] at this
        exact Option.some.inj this
      have hk : ∀ q ∈ t, q.1 ≠ k := by
        unfold NodupKeys dictKeys at hn
        simp only [List.map_cons, List.nodup_cons] at hn
        intro q hq hh
        exact hn.1 (List.mem_map.mpr ⟨q, hq, hh.trans hp.symm⟩)
      have ht : dictFind t k = none := (dictFind_eq_none_iff t k).mpr hk
      simp only [dictUpdate]
      rw [dictFind_dictUpdate_of_none _ _ _ ht, dictFind_insertVal]
      simp [hp, hv]
    · have ht : dictFind t k = some v := by
        have := h
        simpa only [dictFind, if_neg hp] using this
      have hn2 : NodupKeys t := by
        unfold NodupKeys dictKeys at *
        simp only [List.map_cons, List.nodup_cons] at hn
        exact hn.2
      simp only [dictUpdate]
      exact ih _ hn2 ht

theorem dictFind_dictUpdate_isSome (e : Dict) (d : Dict) (k : String)
    (h : (dictFind d k).isSome) :
    (dictFind (dictUpdate d e) k).isSome := by
  induction e generalizing d with
  | nil => simpa [dictUpdate]
  | cons p t ih =>
    simp only [dictUpdate]
    refine ih _ ?_
    rw [dictFind_insertVal]
    by_cases h2 : k = p.1 <;> simp [h2, h]

theorem mem_insertVal (d : Dict) (k : String) (v : Value) (p : String × Value)
    (h : p ∈ insertVal d k v) : p = (k, v) ∨ p ∈ d := by
  induction d with
  | nil => simpa [insertVal] using h
  | cons q t ih =>
    by_cases hq : q.1 = k
    · simp only [insertVal, if_pos hq, List.mem_cons] at h
      rcases h with h | h
      · exact Or.inl h
      · exact Or.inr (List.mem_cons_of_mem _ h)
    · simp only [insertVal, if_neg hq, List.mem_cons] at h
      rcases h with h | h
      · exact Or.inr (h ▸ List.mem_cons_self _ _)
      · rcases ih h with h2 | h2
        · exact Or.inl h2
        · exact Or.inr (List.mem_cons_of_mem _ h2)

theorem mem_dictUpdate (d e : Dict) (p : String × Value)
    (h : p ∈ dictUpdate d e) : p ∈ d ∨ p ∈ e := by
  induction e generalizing d with
  | nil => exact Or.inl (by simpa [dictUpdate] using h)
  | cons q t ih =>
    simp only [dictUpdate] at h
    rcases ih _ h with h2 | h2
    · rcases mem_insertVal _ _ _ _ h2 with h3 | h3
      · exact Or.inr (h3 ▸ List.mem_cons_self _ _)
      · exact Or.inl h3
    · exact Or.inr (List.mem_cons_of_mem _ h2)

theorem mem_removeKey (d : Dict) (k : String) (p : String × Value)
    (h : p ∈ removeKey d k) : p ∈ d ∧ p.1 ≠ k := by
  induction d with
  | nil => simp [removeKey] at h
  | cons q t ih =>
    by_cases hq : q.1 = k
    · simp only [removeKey, if_pos hq] at h
      exact ⟨List.mem_cons_of_mem _ (ih h).1, (ih h).2⟩
    · simp only [removeKey, if_neg hq, List.mem_cons] at h
      rcases h with h | h
      · exact ⟨h ▸ List.mem_cons_self _ _, h ▸ hq⟩
      · exact ⟨List.mem_cons_of_mem _ (ih h).1, (ih h).2⟩

theorem serializableDict_iff (d : Dict) :
    serializableDict d = true ↔ ∀ p ∈ d, serialVal p.2 = true := by
  simp [serializableDict, List.all_eq_true]

/- ------------------------------------------------------------------ -/
/- Stage lemmas                                                        -/
/- ------------------------------------------------------------------ -/

theorem statusFind_none (r : LogRecord) (k : String)
    (h1 : ¬ k = "job_status") (h2 : ¬ k = "pipeline_status") :
    dictFind (checkFailedPipelineStatus r) k = none := by
  have h1s : ¬ "job_status" = k := fun hh => h1 hh.symm
  have h2s : ¬ "pipeline_status" = k := fun hh => h2 hh.symm
  unfold checkFailedPipelineStatus
  split <;> simp [dictFind, h1s, h2s]

theorem fimFind_none (cwd : List (List Char)) (r : LogRecord) (k : String)
    (h1 : ¬ k = "original_levelno") (h2 : ¬ k = "original_levelname")
    (h3 : ¬ k = "levelno") (h4 : ¬ k = "levelname")
    (h5 : ¬ k = "filter_imported_modules") :
    dictFind (filterImportedModules cwd r).1 k = none := by
  have h1s : ¬ "original_levelno" = k := fun hh => h1 hh.symm
  have h2s : ¬ "original_levelname" = k := fun hh => h2 hh.symm
  have h3s : ¬ "levelno" = k := fun hh => h3 hh.symm
  have h4s : ¬ "levelname" = k := fun hh => h4 hh.symm
  have h5s : ¬ "filter_imported_modules" = k := fun hh => h5 hh.symm
  unfold filterImportedModules
  split
  · simp [dictFind]
  · split <;> simp [dictFind, h1s, h2s, h3s, h4s, h5s]

theorem fim_fields (cwd : List (List Char)) (r : LogRecord) :
    (filterImportedModules cwd r).2.msg = r.msg
    ∧ (filterImportedModules cwd r).2.args = r.args
    ∧ (filterImportedModules cwd r).2.excInfo = r.excInfo
    ∧ (filterImportedModules cwd r).2.extraAttrs = r.extraAttrs
    ∧ (filterImportedModules cwd r).2.pathname = r.pathname
    ∧ (filterImportedModules cwd r).2.lineno = r.lineno := by
  unfold filterImportedModules
  split
  · simp
  · split <;> simp


theorem find_addLogRecordInfo_message (r : LogRecord)
    (ha : dictFind (argsDict r) MESSAGE_KEY = none) :
    dictFind (addLogRecordInfo r) MESSAGE_KEY = some (.str r.msg) := by
  unfold addLogRecordInfo
  cases hargs : r.args with
  | none =>
    simp [dictFind_removeKey, dictFind_insertVal, MESSAGE_KEY]
  | some ad =>
    have ha2 : dictFind ad MESSAGE_KEY = none := by
      simpa [argsDict, hargs] using ha
    simp only [dictFind_removeKey, if_neg (by decide : ¬ MESSAGE_KEY = "args")]
    rw [dictFind_dictUpdate_of_none _ _ _ ha2]
    simp [dictFind_removeKey, dictFind_insertVal, MESSAGE_KEY]

theorem find_addLogRecordInfo_level (r : LogRecord)
    (ha : dictFind (argsDict r) "level" = none) :
    dictFind (addLogRecordInfo r) "level" = some (.str r.levelname) := by
  unfold addLogRecordInfo
  cases hargs : r.args with
  | none =>
    simp [dictFind_removeKey, dictFind_insertVal, MESSAGE_KEY]
  | some ad =>
    have ha2 : dictFind ad "level" = none := by
      simpa [argsDict, hargs] using ha
    simp only [dictFind_removeKey, if_neg (by decide : ¬ "level" = "args")]
    rw [dictFind_dictUpdate_of_none _ _ _ ha2]
    simp [dictFind_removeKey, dictFind_insertVal, MESSAGE_KEY]

theorem find_addLogRecordInfo_none (r : LogRecord) (k : String)
    (hb : ¬ k = "msg" ∧ ¬ k = "levelname" ∧ ¬ k = "levelno"
        ∧ ¬ k = "pathname" ∧ ¬ k = "lineno" ∧ ¬ k = "args"
        ∧ ¬ k = "exc_info" ∧ ¬ k = "level" ∧ ¬ k = MESSAGE_KEY)
    (hx : dictFind r.extraAttrs k = none)
    (ha : dictFind (argsDict r) k = none) :
    dictFind (addLogRecordInfo r) k = none := by
  obtain ⟨b1, b2, b3, b4, b5, b6, b7, b8, b9⟩ := hb
  have c1 : ¬ "msg" = k := fun hh => b1 hh.symm
  have c2 : ¬ "levelname" = k := fun hh => b2 hh.symm
  have c3 : ¬ "levelno" = k := fun hh => b3 hh.symm
  have c4 : ¬ "pathname" = k := fun hh => b4 hh.symm
  have c5 : ¬ "lineno" = k := fun hh => b5 hh.symm
  have c6 : ¬ "args" = k := fun hh => b6 hh.symm
  have c7 : ¬ "exc_info" = k := fun hh => b7 hh.symm
  have base : dictFind (recordDict r) k = none := by
    unfold recordDict
    rw [dictFind_dictUpdate_of_none _ _ _ hx]
    simp [dictFind, c1, c2, c3, c4, c5, c6, c7]
  unfold addLogRecordInfo
  cases hargs : r.args with
  | none =>
    simp [dictFind_removeKey, dictFind_insertVal, b1, b8, b9, base]
  | some ad =>
    have ha2 : dictFind ad k = none := by
      simpa [argsDict, hargs] using ha
    simp only [dictFind_removeKey, if_neg b6]
    rw [dictFind_dictUpdate_of_none _ _ _ ha2]
    simp [dictFind_removeKey, dictFind_insertVal, b1, b8, b9, base]

theorem nodupKeys_recordDict (r : LogRecord) : NodupKeys (recordDict r) := by
  unfold recordDict
  apply nodupKeys_dictUpdate
  unfold NodupKeys dictKeys
  simp only [List.map_cons, List.map_nil]
  decide

theorem nodupKeys_addLogRecordInfo (r : LogRecord) :
    NodupKeys (addLogRecordInfo r) := by
  unfold addLogRecordInfo
  cases r.args with
  | none =>
    exact nodupKeys_removeKey _ _
      (nodupKeys_insertVal _ _ _ (nodupKeys_insertVal _ _ _ (nodupKeys_recordDict r)))
  | some ad =>
    exact nodupKeys_removeKey _ _
      (nodupKeys_dictUpdate _ _
        (nodupKeys_removeKey _ _
          (nodupKeys_insertVal _ _ _ (nodupKeys_insertVal _ _ _ (nodupKeys_recordDict r)))))

theorem serializable_addLogRecordInfo (r : LogRecord)
    (hx : serializableDict r.extraAttrs = true)
    (ha : serializableDict (argsDict r) = true)
    (he : r.excInfo = none) :
    serializableDict (addLogRecordInfo r) = true := by
  rw [serializableDict_iff]
  intro p hp
  have base : ∀ q : String × Value, q ∈ recordDict r →
      (q.1 = "args" → r.args = none) → serialVal q.2 = true := by
    intro q hq hq1
    unfold recordDict at hq
    rcases mem_dictUpdate _ _ _ hq with h | h
    · rw [he] at h
      simp only [List.mem_cons, List.not_mem_nil, or_false] at h
      rcases h with h | h | h | h | h | h | h
      · subst h; rfl
      · subst h; rfl
      · subst h; rfl
      · subst h; rfl
      · subst h; rfl
      · rcases hargs : r.args with _ | ad
        · rw [hargs] at h; subst h; rfl
        · have : q.1 = "args" := by rw [h]
          exact absurd (hq1 this) (by simp [hargs])
      · subst h; rfl
    · exact (serializableDict_iff _).mp hx q h
  have mid : ∀ q : String × Value,
      q ∈ removeKey (insertVal (insertVal (recordDict r) "level"
        (.str r.levelname)) MESSAGE_KEY (.str r.msg)) "msg" →
      (q.1 = "args" → r.args = none) → serialVal q.2 = true := by
    intro q hq hq1
    obtain ⟨hq2, _⟩ := mem_removeKey _ _ _ hq
    rcases mem_insertVal _ _ _ _ hq2 with h | h
    · subst h; rfl
    · rcases mem_insertVal _ _ _ _ h with h2 | h2
      · subst h2; rfl
      · exact base q h2 hq1
  unfold addLogRecordInfo at hp
  cases hargs : r.args with
  | none =>
    rw [hargs] at hp
    exact mid p hp (fun _ => hargs)
  | some ad =>
    rw [hargs] at hp
    obtain ⟨hp2, hpa⟩ := mem_removeKey _ _ _ hp
    rcases mem_dictUpdate _ _ _ hp2 with h | h
    · exact mid p h (fun hh => absurd hh hpa)
    · refine (serializableDict_iff _).mp ?_ p h
      simpa [argsDict, hargs] using ha

theorem nodupKeys_status (r : LogRecord) :
    NodupKeys (checkFailedPipelineStatus r) := by
  unfold checkFailedPipelineStatus
  split
  · decide
  · decide

theorem nodupKeys_fim (cwd : List (List Char)) (r : LogRecord) :
    NodupKeys (filterImportedModules cwd r).1 := by
  unfold filterImportedModules
  split
  · exact List.nodup_nil
  · split
    · exact List.nodup_nil
    · exact (by decide :
        (["original_levelno", "original_levelname", "levelno", "levelname",
          "filter_imported_modules"] : List String).Nodup)

theorem goOn_record_msg (b : Bool) (d : Dict) (r : LogRecord) (d2 : Dict)
    (r2 : LogRecord) (h : logAvailableExecInfo b d r = .goOn d2 r2) :
    r2.msg = r.msg := by
  unfold logAvailableExecInfo at h
  cases he : r.excInfo with
  | none =>
    rw [he] at h
    injection h with h1 h2
    rw [← h2]
  | some rows =>
    rw [he] at h
    cases b with
    | false =>
      simp only [Bool.not_false, if_pos] at h
      injection h with h1 h2
      rw [← h2]
    | true => simp at h

/-- C1: if an unexpected exception (a json.dumps serialisation failure,
the one internal operation of the pipeline that can raise outside the
two _StopLogging paths) occurs during enrichment, ContextFilter.filter
catches it and returns True with no inner emissions, so the original
event still passes through to the handler with its message unmodified
and the exception never propagates to the logging caller. -/
theorem c1_internal_error_swallowed (cfg : Config) (cwd : List (List Char))
    (ctx : Dict) (r : LogRecord) (d m5 : Dict) (r2 : LogRecord)
    (h1 : logAvailableExecInfo cfg.exTraceAsNewMessage (enrich cwd ctx r).1
            (enrich cwd ctx r).2 = .goOn d r2)
    (h2 : logTooLongMessage cfg.splitThreshold d = some (.goOn m5))
    (h3 : serializableDict m5 = false) :
    filterRecord cfg cwd ctx r = some ⟨[], true, r2, none⟩
    ∧ r2.msg = r.msg := by
  constructor
  · simp only [filterRecord]
    rw [h1]
    simp only [h2, h3]
    simp
  · rw [goOn_record_msg _ _ _ _ _ h1]
    exact (fim_fields cwd r).1

/-- Witness for C1 at a concrete record whose extra attribute is not
JSON-serialisable. -/
theorem c1_witness :
    filterRecord {} cwd0 [] recUnserializable
      = some ⟨[], true, recUnserializable, none⟩
    ∧ recUnserializable.msg = recUnserializable.msg :=
  c1_internal_error_swallowed {} cwd0 [] recUnserializable _ _ _
    rfl rfl (by decide)

/-- C2: the enrichment merge is applied in the fixed order context store,
then imported-module downgrade dict, then record info (including
per-call extras), then pipeline-status, with every later layer
overriding earlier ones: a key written by the pipeline-status stage gets
that value; otherwise a key written by the record info (attributes and
per-call extras) gets that event-specific value, overriding any
context-store entry; otherwise the downgrade stage value applies;
otherwise the context-store value survives unchanged. -/
theorem c2_merge_order (cwd : List (List Char)) (ctx : Dict) (r : LogRecord)
    (k : String) :
    (∀ w, dictFind (checkFailedPipelineStatus (filterImportedModules cwd r).2) k = some w →
       dictFind (enrich cwd ctx r).1 k = some w)
    ∧ (dictFind (checkFailedPipelineStatus (filterImportedModules cwd r).2) k = none →
       (∀ v, dictFind (addLogRecordInfo (filterImportedModules cwd r).2) k = some v →
          dictFind (enrich cwd ctx r).1 k = some v)
       ∧ (dictFind (addLogRecordInfo (filterImportedModules cwd r).2) k = none →
          (∀ u, dictFind (filterImportedModules cwd r).1 k = some u →
             dictFind (enrich cwd ctx r).1 k = some u)
          ∧ (dictFind (filterImportedModules cwd r).1 k = none →
             dictFind (enrich cwd ctx r).1 k = dictFind ctx k))) := by
  refine ⟨fun w hw => ?_, fun hs => ⟨fun v hv => ?_, fun hi => ⟨fun u hu => ?_, fun hf => ?_⟩⟩⟩
  · simp only [enrich]
    exact dictFind_dictUpdate_of_some _ _ _ _ (nodupKeys_status _) hw
  · simp only [enrich]
    rw [dictFind_dictUpdate_of_none _ _ _ hs]
    exact dictFind_dictUpdate_of_some _ _ _ _ (nodupKeys_addLogRecordInfo _) hv
  · simp only [enrich]
    rw [dictFind_dictUpdate_of_none _ _ _ hs, dictFind_dictUpdate_of_none _ _ _ hi]
    exact dictFind_dictUpdate_of_some _ _ _ _ (nodupKeys_fim _ _) hu
  · simp only [enrich]
    rw [dictFind_dictUpdate_of_none _ _ _ hs, dictFind_dictUpdate_of_none _ _ _ hi,
        dictFind_dictUpdate_of_none _ _ _ hf]

/-- Witness for C2: for a concrete record the event-specific lineno
value overrides the context entry of the same key. -/
theorem c2_witness :
    dictFind (enrich cwd0 [("lineno", Value.str ['c'])] recC2w).1 "lineno"
      = some (Value.int 7) :=
  ((c2_merge_order cwd0 [("lineno", Value.str ['c'])] recC2w "lineno").2
    (by decide)).1 (Value.int 7) (by decide)

/-- C7 (amended): the finalized event carries job_status == "failed" and
pipeline_status == "failed" whenever the effective severity after the
dependency-noise downgrade stage is at or above CRITICAL; the converse
holds only provided the context store, the record attributes and the
per-call extras do not themselves supply the "job_status" key. Without
that proviso only the forward implication is true (see the
counterexample). -/
theorem c7_failed_status (cwd : List (List Char)) (ctx : Dict) (r : LogRecord) :
    (CRITICAL ≤ (filterImportedModules cwd r).2.levelno →
       dictFind (enrich cwd ctx r).1 "job_status" = some (.str "failed".toList)
       ∧ dictFind (enrich cwd ctx r).1 "pipeline_status" = some (.str "failed".toList))
    ∧ (dictFind ctx "job_status" = none →
       dictFind r.extraAttrs "job_status" = none →
       dictFind (argsDict r) "job_status" = none →
       dictFind (enrich cwd ctx r).1 "job_status" = some (.str "failed".toList) →
       CRITICAL ≤ (filterImportedModules cwd r).2.levelno) := by
  constructor
  · intro h
    have hst : checkFailedPipelineStatus (filterImportedModules cwd r).2 =
        [("job_status", .str "failed".toList),
         ("pipeline_status", .str "failed".toList)] := by
      unfold checkFailedPipelineStatus
      rw [if_pos h]
    constructor
    · simp only [enrich]
      exact dictFind_dictUpdate_of_some _ _ _ _ (nodupKeys_status _)
        (by rw [hst]; decide)
    · simp only [enrich]
      exact dictFind_dictUpdate_of_some _ _ _ _ (nodupKeys_status _)
        (by rw [hst]; decide)
  · intro hctx hx ha hfound
    by_contra hlt
    have hst : checkFailedPipelineStatus (filterImportedModules cwd r).2 = [] := by
      unfold checkFailedPipelineStatus
      rw [if_neg hlt]
    have h1 : dictFind (checkFailedPipelineStatus (filterImportedModules cwd r).2)
        "job_status" = none := by rw [hst]; rfl
    have hx1 : dictFind (filterImportedModules cwd r).2.extraAttrs "job_status" = none := by
      rw [(fim_fields cwd r).2.2.2.1]
      exact hx
    have ha1 : dictFind (argsDict (filterImportedModules cwd r).2) "job_status" = none := by
      unfold argsDict
      rw [(fim_fields cwd r).2.1]
      exact ha
    have h2 : dictFind (addLogRecordInfo (filterImportedModules cwd r).2)
        "job_status" = none :=
      find_addLogRecordInfo_none _ _ (by decide) hx1 ha1
    have h3 : dictFind (filterImportedModules cwd r).1 "job_status" = none :=
      fimFind_none _ _ _ (by decide) (by decide) (by decide) (by decide) (by decide)
    simp only [enrich] at hfound
    rw [dictFind_dictUpdate_of_none _ _ _ h1, dictFind_dictUpdate_of_none _ _ _ h2,
        dictFind_dictUpdate_of_none _ _ _ h3, hctx] at hfound
    exact Option.noConfusion hfound

/-- Counterexample to C7 as stated: an INFO record whose per-call args
inject both status keys produces a finalized event containing
job_status == "failed" and pipeline_status == "failed" although its
effective severity is 20, far below CRITICAL, so the only-if direction
of the claim fails on the code. -/
theorem c7_counterexample :
    dictFind (enrich cwd0 [] recC7cex).1 "job_status" = some (.str "failed".toList)
    ∧ dictFind (enrich cwd0 [] recC7cex).1 "pipeline_status" = some (.str "failed".toList)
    ∧ (filterImportedModules cwd0 recC7cex).2.levelno = 20
    ∧ ¬ CRITICAL ≤ (filterImportedModules cwd0 recC7cex).2.levelno := by
  refine ⟨by decide, by decide, by decide, by decide⟩

/-- Witness for C7 at a concrete CRITICAL record. -/
theorem c7_witness :
    dictFind (enrich cwd0 [] recCrit).1 "job_status" = some (.str "failed".toList)
    ∧ dictFind (enrich cwd0 [] recCrit).1 "pipeline_status" = some (.str "failed".toList) :=
  (c7_failed_status cwd0 [] recCrit).1 (by decide)

/-- C4 (amended): for a record at severity >= ERROR whose origin path is
outside the working directory or venv-marked, provided the per-call
extras and extra attributes do not themselves redefine the derived keys
("level", "original_levelno", "original_levelname",
"filter_imported_modules"), the record is downgraded to WARNING and the
finalized event carries level == "WARNING", the original level name and
number, and filter_imported_modules == "Filtered". Without that proviso
the claim fails (see the counterexample). -/
theorem c4_dependency_downgrade (cwd : List (List Char)) (ctx : Dict)
    (r : LogRecord)
    (hlvl : ERROR ≤ r.levelno)
    (himp : checkIsImportedModule cwd r.pathname = true)
    (hx : dictFind r.extraAttrs "level" = none
        ∧ dictFind r.extraAttrs "original_levelno" = none
        ∧ dictFind r.extraAttrs "original_levelname" = none
        ∧ dictFind r.extraAttrs "filter_imported_modules" = none)
    (ha : dictFind (argsDict r) "level" = none
        ∧ dictFind (argsDict r) "original_levelno" = none
        ∧ dictFind (argsDict r) "original_levelname" = none
        ∧ dictFind (argsDict r) "filter_imported_modules" = none) :
    (filterImportedModules cwd r).2.levelno = WARNING
    ∧ (filterImportedModules cwd r).2.levelname = "WARNING".toList
    ∧ dictFind (enrich cwd ctx r).1 "level" = some (.str "WARNING".toList)
    ∧ dictFind (enrich cwd ctx r).1 "original_levelname" = some (.str r.levelname)
    ∧ dictFind (enrich cwd ctx r).1 "original_levelno" = some (.int r.levelno)
    ∧ dictFind (enrich cwd ctx r).1 "filter_imported_modules"
        = some (.str "Filtered".toList) := by
  have hnot : ¬ r.levelno < ERROR := not_lt.mpr hlvl
  have hfim : filterImportedModules cwd r =
      ([("original_levelno", .int r.levelno),
        ("original_levelname", .str r.levelname),
        ("levelno", .int WARNING),
        ("levelname", .str "WARNING".toList),
        ("filter_imported_modules", .str "Filtered".toList)],
       { r with levelno := WARNING, levelname := "WARNING".toList }) := by
    unfold filterImportedModules
    rw [if_neg hnot, himp]
    simp
  have hinfo : NodupKeys (addLogRecordInfo (filterImportedModules cwd r).2) :=
    nodupKeys_addLogRecordInfo _
  refine ⟨by rw [hfim], by rw [hfim], ?_, ?_, ?_, ?_⟩
  · have hst : dictFind (checkFailedPipelineStatus (filterImportedModules cwd r).2)
        "level" = none := statusFind_none _ _ (by decide) (by decide)
    have hlev : dictFind (addLogRecordInfo (filterImportedModules cwd r).2)
        "level" = some (.str "WARNING".toList) := by
      have := find_addLogRecordInfo_level (filterImportedModules cwd r).2
        (by unfold argsDict; rw [hfim]; exact ha.1)
      rw [hfim] at this ⊢
      exact this
    simp only [enrich]
    rw [dictFind_dictUpdate_of_none _ _ _ hst]
    exact dictFind_dictUpdate_of_some _ _ _ _ hinfo hlev
  · have hst : dictFind (checkFailedPipelineStatus (filterImportedModules cwd r).2)
        "original_levelname" = none := statusFind_none _ _ (by decide) (by decide)
    have hi : dictFind (addLogRecordInfo (filterImportedModules cwd r).2)
        "original_levelname" = none :=
      find_addLogRecordInfo_none _ _ (by decide)
        (by rw [hfim]; exact hx.2.2.1)
        (by unfold argsDict; rw [hfim]; exact ha.2.2.1)
    have hf : dictFind (filterImportedModules cwd r).1 "original_levelname"
        = some (.str r.levelname) := by
      rw [hfim]
      simp [dictFind]
    simp only [enrich]
    rw [dictFind_dictUpdate_of_none _ _ _ hst, dictFind_dictUpdate_of_none _ _ _ hi]
    exact dictFind_dictUpdate_of_some _ _ _ _ (nodupKeys_fim _ _) hf
  · have hst : dictFind (checkFailedPipelineStatus (filterImportedModules cwd r).2)
        "original_levelno" = none := statusFind_none _ _ (by decide) (by decide)
    have hi : dictFind (addLogRecordInfo (filterImportedModules cwd r).2)
        "original_levelno" = none :=
      find_addLogRecordInfo_none _ _ (by decide)
        (by rw [hfim]; exact hx.2.1)
        (by unfold argsDict; rw [hfim]; exact ha.2.1)
    have hf : dictFind (filterImportedModules cwd r).1 "original_levelno"
        = some (.int r.levelno) := by
      rw [hfim]
      simp [dictFind]
    simp only [enrich]
    rw [dictFind_dictUpdate_of_none _ _ _ hst, dictFind_dictUpdate_of_none _ _ _ hi]
    exact dictFind_dictUpdate_of_some _ _ _ _ (nodupKeys_fim _ _) hf
  · have hst : dictFind (checkFailedPipelineStatus (filterImportedModules cwd r).2)
        "filter_imported_modules" = none := statusFind_none _ _ (by decide) (by decide)
    have hi : dictFind (addLogRecordInfo (filterImportedModules cwd r).2)
        "filter_imported_modules" = none :=
      find_addLogRecordInfo_none _ _ (by decide)
        (by rw [hfim]; exact hx.2.2.2)
        (by unfold argsDict; rw [hfim]; exact ha.2.2.2)
    have hf : dictFind (filterImportedModules cwd r).1 "filter_imported_modules"
        = some (.str "Filtered".toList) := by
      rw [hfim]
      simp [dictFind]
    simp only [enrich]
    rw [dictFind_dictUpdate_of_none _ _ _ hst, dictFind_dictUpdate_of_none _ _ _ hi]
    exact dictFind_dictUpdate_of_some _ _ _ _ (nodupKeys_fim _ _) hf

/-- Counterexample to C4 as stated: an ERROR record from outside the
working tree whose per-call args redefine "filter_imported_modules"
yields a finalized event in which that key equals "no" rather than
"Filtered", because the record-info stage (which folds per-call extras
in) is merged after the downgrade dict. -/
theorem c4_counterexample :
    ERROR ≤ recC4cex.levelno
    ∧ checkIsImportedModule cwd0 recC4cex.pathname = true
    ∧ dictFind (enrich cwd0 [] recC4cex).1 "filter_imported_modules"
        = some (.str "no".toList)
    ∧ ¬ dictFind (enrich cwd0 [] recC4cex).1 "filter_imported_modules"
        = some (.str "Filtered".toList) := by
  refine ⟨by decide, by decide, by decide, by decide⟩

/-- Witness for C4 at a concrete imported-module ERROR record. -/
theorem c4_witness :
    (filterImportedModules cwd0 recImported).2.levelno = WARNING
    ∧ (filterImportedModules cwd0 recImported).2.levelname = "WARNING".toList
    ∧ dictFind (enrich cwd0 [] recImported).1 "level" = some (.str "WARNING".toList)
    ∧ dictFind (enrich cwd0 [] recImported).1 "original_levelname"
        = some (.str recImported.levelname)
    ∧ dictFind (enrich cwd0 [] recImported).1 "original_levelno"
        = some (.int recImported.levelno)
    ∧ dictFind (enrich cwd0 [] recImported).1 "filter_imported_modules"
        = some (.str "Filtered".toList) :=
  c4_dependency_downgrade cwd0 [] recImported (by decide) (by decide)
    ⟨by decide, by decide, by decide, by decide⟩
    ⟨by decide, by decide, by decide, by decide⟩

theorem nodupKeys_envVarsMerge (env : Env) (ctx : Dict) :
    ∀ (ks : List String) (acc : Dict), NodupKeys acc →
      NodupKeys (envVarsMerge env ctx ks acc) := by
  intro ks
  induction ks with
  | nil => intro acc h; simpa [envVarsMerge] using h
  | cons key t ih =>
    intro acc h
    cases hg : getEnvVal env key with
    | none => simp only [envVarsMerge, hg]; exact ih _ h
    | some v =>
      simp only [envVarsMerge, hg]
      split
      · exact ih _ h
      · split
        · exact ih _ h
        · exact ih _ (nodupKeys_insertVal _ _ _ h)

theorem envVarsMerge_find_untouched (env : Env) (ctx : Dict) (k : String) :
    ∀ (ks : List String) (acc : Dict), k ∉ ks →
      dictFind (envVarsMerge env ctx ks acc) k = dictFind acc k := by
  intro ks
  induction ks with
  | nil => intro acc _; simp [envVarsMerge]
  | cons key t ih =>
    intro acc hk
    have hk1 : ¬ k = key := fun hh => hk (hh ▸ List.mem_cons_self _ _)
    have hk2 : k ∉ t := fun hh => hk (List.mem_cons_of_mem _ hh)
    cases hg : getEnvVal env key with
    | none => simp only [envVarsMerge, hg]; exact ih _ hk2
    | some v =>
      simp only [envVarsMerge, hg]
      split
      · exact ih _ hk2
      · split
        · exact ih _ hk2
        · rw [ih _ hk2, dictFind_insertVal, if_neg hk1]

theorem calcRetries_cases (env : Env) :
    (calculateRemainingJobRetries env).1 = []
    ∨ ∃ w, (calculateRemainingJobRetries env).1 = [(JOB_REMAINING_RETRIES, w)] := by
  simp only [calculateRemainingJobRetries]
  split
  · split
    · right; exact ⟨_, rfl⟩
    · left; rfl
  · left; rfl

/-- C8: with JOB_INDEX_RETRY_COUNT=2 and JOB_RETRY_LIMIT=5 in the
environment, context initialisation (indeed every update_context call)
binds job_remaining_retries to the string "3" = str(5 - 2); when either
variable is missing (or empty, which Python truthiness treats the same)
the computation contributes nothing and no warning is issued; when both
are present and truthy but one is not parseable as an int, the except
branch logs a warning and the computation still returns normally with
an empty contribution. -/
theorem c8_remaining_retries :
    (∀ (env : Env) (store ctx : Dict), NodupKeys ctx →
       getEnvVal env JOB_RETRY_COUNT_ENV = some "2".toList →
       getEnvVal env JOB_RETRY_LIMIT_ENV = some "5".toList →
       dictFind (updateContext env store ctx) JOB_REMAINING_RETRIES
         = some (.str "3".toList))
    ∧ (∀ env : Env,
       getEnvVal env JOB_RETRY_COUNT_ENV = none
         ∨ getEnvVal env JOB_RETRY_LIMIT_ENV = none →
       calculateRemainingJobRetries env = ([], false))
    ∧ (∀ (env : Env) (s t : List Char),
       getEnvVal env JOB_RETRY_COUNT_ENV = some s →
       getEnvVal env JOB_RETRY_LIMIT_ENV = some t →
       s.isEmpty = false → t.isEmpty = false →
       pyInt s = none ∨ pyInt t = none →
       calculateRemainingJobRetries env = ([], true)) := by
  refine ⟨?_, ?_, ?_⟩
  · intro env store ctx hctx hc hl
    have hcalc : calculateRemainingJobRetries env
        = ([(JOB_REMAINING_RETRIES, .str "3".toList)], false) := by
      simp only [calculateRemainingJobRetries, hc, hl]
      rfl
    have h1 : dictFind (dictUpdate (addSelectedEnvVars env ctx)
        (calculateRemainingJobRetries env).1) JOB_REMAINING_RETRIES
          = some (.str "3".toList) := by
      rw [hcalc]
      exact dictFind_dictUpdate_of_some _ _ _ _ (by decide) (by decide)
    have hnd : NodupKeys (dictUpdate (addSelectedEnvVars env ctx)
        (calculateRemainingJobRetries env).1) :=
      nodupKeys_dictUpdate _ _ (nodupKeys_envVarsMerge env ctx _ _ hctx)
    simp only [updateContext]
    exact dictFind_dictUpdate_of_some _ _ _ _ hnd h1
  · intro env h
    rcases h with h | h
    · simp only [calculateRemainingJobRetries, h, truthyOpt, Bool.false_and]
      rfl
    · simp only [calculateRemainingJobRetries, h, truthyOpt, Bool.and_false]
      rfl
  · intro env s t hs ht hse hte hpy
    simp only [calculateRemainingJobRetries, hs, ht, truthyOpt, hse, hte,
      Bool.not_false, Bool.and_self, if_pos]
    rcases hpy with h | h
    · rw [Option.getD_some, h]
    · rw [Option.getD_some, Option.getD_some, h]
      cases pyInt s <;> rfl

/-- Witness for C8: the three branches at concrete environments. -/
theorem c8_witness :
    dictFind (updateContext
        [(JOB_RETRY_COUNT_ENV, "2".toList), (JOB_RETRY_LIMIT_ENV, "5".toList)]
        [] []) JOB_REMAINING_RETRIES = some (.str "3".toList)
    ∧ calculateRemainingJobRetries [(JOB_RETRY_LIMIT_ENV, "5".toList)] = ([], false)
    ∧ calculateRemainingJobRetries
        [(JOB_RETRY_COUNT_ENV, "x".toList), (JOB_RETRY_LIMIT_ENV, "5".toList)]
        = ([], true) :=
  ⟨c8_remaining_retries.1
      [(JOB_RETRY_COUNT_ENV, "2".toList), (JOB_RETRY_LIMIT_ENV, "5".toList)]
      [] [] (by decide) (by decide) (by decide),
   c8_remaining_retries.2.1 [(JOB_RETRY_LIMIT_ENV, "5".toList)] (Or.inl (by decide)),
   c8_remaining_retries.2.2
      [(JOB_RETRY_COUNT_ENV, "x".toList), (JOB_RETRY_LIMIT_ENV, "5".toList)]
      "x".toList "5".toList (by decide) (by decide) (by decide) (by decide)
      (Or.inl (by decide))⟩

/-- C9: with a fixed environment, running update_context with an empty
mapping twice leaves the context store with exactly the same bindings as
one call (idempotence); running it with k mapped to v1 and then with k
mapped to v2 leaves k bound to v2 (last writer wins); and no
update_context call ever removes a key that the store already binds. -/
theorem c9_update_algebra :
    (∀ (env : Env) (store : Dict) (k : String),
       dictFind (updateContext env (updateContext env store []) []) k
         = dictFind (updateContext env store []) k)
    ∧ (∀ (env : Env) (store : Dict) (v1 v2 : Value),
       dictFind (updateContext env (updateContext env store [("k", v1)])
         [("k", v2)]) "k" = some v2)
    ∧ (∀ (env : Env) (store newCtx : Dict) (k : String),
       (dictFind store k).isSome = true →
       (dictFind (updateContext env store newCtx) k).isSome = true) := by
  refine ⟨?_, ?_, ?_⟩
  · intro env store k
    have hnd : NodupKeys (dictUpdate (addSelectedEnvVars env [])
        (calculateRemainingJobRetries env).1) :=
      nodupKeys_dictUpdate _ _
        (nodupKeys_envVarsMerge env [] _ _ List.nodup_nil)
    simp only [updateContext]
    cases hE : dictFind (dictUpdate (addSelectedEnvVars env [])
        (calculateRemainingJobRetries env).1) k with
    | none =>
      rw [dictFind_dictUpdate_of_none _ _ _ hE]
    | some v =>
      rw [dictFind_dictUpdate_of_some _ _ _ _ hnd hE,
          dictFind_dictUpdate_of_some _ _ _ _ hnd hE]
  · intro env store v1 v2
    have h1 : dictFind (addSelectedEnvVars env [("k", v2)]) "k" = some v2 := by
      unfold addSelectedEnvVars
      rw [envVarsMerge_find_untouched _ _ _ _ _ (by decide)]
      rfl
    have h2 : dictFind (calculateRemainingJobRetries env).1 "k" = none := by
      rcases calcRetries_cases env with h | ⟨w, h⟩ <;> rw [h] <;> rfl
    have h3 : dictFind (dictUpdate (addSelectedEnvVars env [("k", v2)])
        (calculateRemainingJobRetries env).1) "k" = some v2 := by
      rw [dictFind_dictUpdate_of_none _ _ _ h2]
      exact h1
    have hnd : NodupKeys (dictUpdate (addSelectedEnvVars env [("k", v2)])
        (calculateRemainingJobRetries env).1) :=
      nodupKeys_dictUpdate _ _
        (nodupKeys_envVarsMerge env [("k", v2)] _ _
          (by exact (by decide : (["k"] : List String).Nodup)))
    simp only [updateContext]
    exact dictFind_dictUpdate_of_some _ _ _ _ hnd h3
  · intro env store newCtx k h
    simp only [updateContext]
    exact dictFind_dictUpdate_isSome _ _ _ h

/-- Witness for C9: the no-deletion part at a concrete store. -/
theorem c9_witness :
    (dictFind (updateContext [] [("a", Value.str ['b'])] []) "a").isSome = true :=
  c9_update_algebra.2.2 [] [("a", Value.str ['b'])] [] "a" (by decide)

theorem enrich_snd (cwd : List (List Char)) (ctx : Dict) (r : LogRecord) :
    (enrich cwd ctx r).2 = (filterImportedModules cwd r).2 := rfl

theorem logAvailable_handled (d : Dict) (r : LogRecord)
    (rows : List (List Char)) (hexc : r.excInfo = some rows) :
    logAvailableExecInfo true d r =
      .handled
        (insertVal (removeKey (removeKey d "exc_info") MESSAGE_KEY) MESSAGE_KEY
            (getMsgVal (removeKey d "exc_info"))
          :: rows.map (fun row =>
              insertVal (removeKey (removeKey d "exc_info") MESSAGE_KEY)
                MESSAGE_KEY (.str row)))
        { r with excInfo := none } := by
  simp [logAvailableExecInfo, hexc]

/-- C6: in trace-as-new-message mode, a record with message m carrying an
exception whose formatted trace has two rows is fully handled by the
exception stage: exactly three events are emitted, the first with
message m (without the trace) and then one per trace row; no emitted
event still contains the exception payload (the exc_info entry is
removed before emission, so nothing is duplicated); and the filter
returns False, suppressing the original single-emission path. -/
theorem c6_exception_fanout (cfg : Config) (cwd : List (List Char))
    (ctx : Dict) (m l1 l2 lname path : List Char) (lvl ln : Int)
    (hmode : cfg.exTraceAsNewMessage = true) :
    (filterRecord cfg cwd ctx (mkExcRec m l1 l2 lvl lname path ln)).map
        FilterResult.ret = some false
    ∧ (filterRecord cfg cwd ctx (mkExcRec m l1 l2 lvl lname path ln)).map
        (fun res => res.events.map (fun e => dictFind e MESSAGE_KEY))
      = some [some (.str m), some (.str l1), some (.str l2)]
    ∧ (filterRecord cfg cwd ctx (mkExcRec m l1 l2 lvl lname path ln)).map
        (fun res => res.events.map (fun e => dictFind e "exc_info"))
      = some [none, none, none] := by
  have hf := fim_fields cwd (mkExcRec m l1 l2 lvl lname path ln)
  have hexc1 : (filterImportedModules cwd (mkExcRec m l1 l2 lvl lname path ln)).2.excInfo
      = some [l1, l2] := by rw [hf.2.2.1]; rfl
  have hargs1 : (filterImportedModules cwd (mkExcRec m l1 l2 lvl lname path ln)).2.args
      = none := by rw [hf.2.1]; rfl
  have hmsg1 : (filterImportedModules cwd (mkExcRec m l1 l2 lvl lname path ln)).2.msg
      = m := by rw [hf.1]; rfl
  have hm3 : dictFind (enrich cwd ctx (mkExcRec m l1 l2 lvl lname path ln)).1
      MESSAGE_KEY = some (.str m) := by
    simp only [enrich]
    rw [dictFind_dictUpdate_of_none _ _ _ (statusFind_none _ _ (by decide) (by decide))]
    have hmi := find_addLogRecordInfo_message
      (filterImportedModules cwd (mkExcRec m l1 l2 lvl lname path ln)).2
      (by unfold argsDict; rw [hargs1]; rfl)
    rw [hmsg1] at hmi
    exact dictFind_dictUpdate_of_some _ _ _ _ (nodupKeys_addLogRecordInfo _) hmi
  have hd1 : getMsgVal (removeKey
      (enrich cwd ctx (mkExcRec m l1 l2 lvl lname path ln)).1 "exc_info")
      = .str m := by
    unfold getMsgVal
    rw [dictFind_removeKey, if_neg (by decide), hm3]
    rfl
  have hhand : logAvailableExecInfo cfg.exTraceAsNewMessage
      (enrich cwd ctx (mkExcRec m l1 l2 lvl lname path ln)).1
      (enrich cwd ctx (mkExcRec m l1 l2 lvl lname path ln)).2 =
      .handled
        (insertVal (removeKey (removeKey
            (enrich cwd ctx (mkExcRec m l1 l2 lvl lname path ln)).1 "exc_info")
            MESSAGE_KEY) MESSAGE_KEY (.str m)
          :: [l1, l2].map (fun row =>
              insertVal (removeKey (removeKey
                (enrich cwd ctx (mkExcRec m l1 l2 lvl lname path ln)).1 "exc_info")
                MESSAGE_KEY) MESSAGE_KEY (.str row)))
        { (enrich cwd ctx (mkExcRec m l1 l2 lvl lname path ln)).2 with
            excInfo := none } := by
    rw [hmode, enrich_snd, logAvailable_handled _ _ _ hexc1, hd1]
  simp only [filterRecord, hhand, List.map_cons, List.map_nil, Option.map_some]
  refine ⟨rfl, ?_, ?_⟩
  · have e1 : ∀ v : Value, dictFind (insertVal (removeKey (removeKey
        (enrich cwd ctx (mkExcRec m l1 l2 lvl lname path ln)).1 "exc_info")
        MESSAGE_KEY) MESSAGE_KEY v) MESSAGE_KEY = some v := by
      intro v
      rw [dictFind_insertVal, if_pos rfl]
    simp [e1]
  · have e2 : ∀ v : Value, dictFind (insertVal (removeKey (removeKey
        (enrich cwd ctx (mkExcRec m l1 l2 lvl lname path ln)).1 "exc_info")
        MESSAGE_KEY) MESSAGE_KEY v) "exc_info" = none := by
      intro v
      rw [dictFind_insertVal, if_neg (by decide), dictFind_removeKey,
          if_neg (by decide), dictFind_removeKey, if_pos rfl]
    simp [e2]

/-- Witness for C6 at concrete message and trace rows. -/
theorem c6_witness :
    (filterRecord { exTraceAsNewMessage := true } cwd0 []
        (mkExcRec ['m'] ['r', '1'] ['r', '2'] 20 "INFO".toList
          "/app/x.py".toList 1)).map FilterResult.ret = some false
    ∧ (filterRecord { exTraceAsNewMessage := true } cwd0 []
        (mkExcRec ['m'] ['r', '1'] ['r', '2'] 20 "INFO".toList
          "/app/x.py".toList 1)).map
        (fun res => res.events.map (fun e => dictFind e MESSAGE_KEY))
      = some [some (.str ['m']), some (.str ['r', '1']), some (.str ['r', '2'])]
    ∧ (filterRecord { exTraceAsNewMessage := true } cwd0 []
        (mkExcRec ['m'] ['r', '1'] ['r', '2'] 20 "INFO".toList
          "/app/x.py".toList 1)).map
        (fun res => res.events.map (fun e => dictFind e "exc_info"))
      = some [none, none, none] :=
  c6_exception_fanout { exTraceAsNewMessage := true } cwd0 [] ['m']
    ['r', '1'] ['r', '2'] "INFO".toList "/app/x.py".toList 20 1 rfl

theorem serializable_enrich (cwd : List (List Char)) (ctx : Dict)
    (r : LogRecord)
    (hc : serializableDict ctx = true)
    (hx : serializableDict r.extraAttrs = true)
    (ha : serializableDict (argsDict r) = true)
    (he : r.excInfo = none) :
    serializableDict (enrich cwd ctx r).1 = true := by
  have hx1 : serializableDict (filterImportedModules cwd r).2.extraAttrs = true := by
    rw [(fim_fields cwd r).2.2.2.1]; exact hx
  have ha1 : serializableDict (argsDict (filterImportedModules cwd r).2) = true := by
    unfold argsDict; rw [(fim_fields cwd r).2.1]; exact ha
  have he1 : (filterImportedModules cwd r).2.excInfo = none := by
    rw [(fim_fields cwd r).2.2.1]; exact he
  rw [serializableDict_iff]
  intro p hp
  simp only [enrich] at hp
  rcases mem_dictUpdate _ _ _ hp with hp2 | hp2
  · rcases mem_dictUpdate _ _ _ hp2 with hp3 | hp3
    · rcases mem_dictUpdate _ _ _ hp3 with hp4 | hp4
      · exact (serializableDict_iff _).mp hc p hp4
      · unfold filterImportedModules at hp4
        split at hp4
        · simp at hp4
        · split at hp4
          · simp at hp4
          · simp only [List.mem_cons, List.not_mem_nil, or_false] at hp4
            rcases hp4 with h | h | h | h | h <;> (subst h; rfl)
    · exact (serializableDict_iff _).mp
        (serializable_addLogRecordInfo _ hx1 ha1 he1) p hp3
  · unfold checkFailedPipelineStatus at hp2
    split at hp2
    · simp only [List.mem_cons, List.not_mem_nil, or_false] at hp2
      rcases hp2 with h | h <;> (subst h; rfl)
    · simp at hp2

/-- C3 (amended): a record with no exception whose message is at most
the split threshold, and whose values (context, extras, per-call args)
are JSON-serialisable, with args not redefining the message key, yields
exactly one finalized event (no inner emissions, filter returns True,
and the single fully merged dict is produced); its message equals the
record message, and it contains every context entry whose key is not
written by any later stage (the downgrade dict, the record info with
extras, or the pipeline status). Without those provisos the claim
fails: a colliding context key is overridden by the event-specific
value, and a non-serialisable value suppresses the enriched event
entirely (see the counterexample). -/
theorem c3_single_emission (cfg : Config) (cwd : List (List Char))
    (ctx : Dict) (r : LogRecord)
    (he : r.excInfo = none)
    (hlen : ((r.msg.length : Nat) : Int) ≤ cfg.splitThreshold)
    (hc : serializableDict ctx = true)
    (hx : serializableDict r.extraAttrs = true)
    (ha : serializableDict (argsDict r) = true)
    (hma : dictFind (argsDict r) MESSAGE_KEY = none) :
    (filterRecord cfg cwd ctx r).map FilterResult.events = some []
    ∧ (filterRecord cfg cwd ctx r).map FilterResult.ret = some true
    ∧ (filterRecord cfg cwd ctx r).bind FilterResult.finalDict
        = some (enrich cwd ctx r).1
    ∧ dictFind (enrich cwd ctx r).1 MESSAGE_KEY = some (.str r.msg)
    ∧ (∀ k v, dictFind ctx k = some v →
        dictFind (filterImportedModules cwd r).1 k = none →
        dictFind (addLogRecordInfo (filterImportedModules cwd r).2) k = none →
        dictFind (checkFailedPipelineStatus (filterImportedModules cwd r).2) k = none →
        dictFind (enrich cwd ctx r).1 k = some v) := by
  have he1 : (filterImportedModules cwd r).2.excInfo = none := by
    rw [(fim_fields cwd r).2.2.1]; exact he
  have hm3 : dictFind (enrich cwd ctx r).1 MESSAGE_KEY = some (.str r.msg) := by
    simp only [enrich]
    rw [dictFind_dictUpdate_of_none _ _ _ (statusFind_none _ _ (by decide) (by decide))]
    have hmi := find_addLogRecordInfo_message (filterImportedModules cwd r).2
      (by unfold argsDict; rw [(fim_fields cwd r).2.1]; exact hma)
    rw [(fim_fields cwd r).1] at hmi
    exact dictFind_dictUpdate_of_some _ _ _ _ (nodupKeys_addLogRecordInfo _) hmi
  have hgo : logAvailableExecInfo cfg.exTraceAsNewMessage (enrich cwd ctx r).1
      (enrich cwd ctx r).2 = .goOn (enrich cwd ctx r).1 (enrich cwd ctx r).2 := by
    rw [enrich_snd]
    unfold logAvailableExecInfo
    rw [he1]
  have hmsgstr : getMsgStr (enrich cwd ctx r).1 = r.msg := by
    unfold getMsgStr
    rw [hm3]
  have hlong : logTooLongMessage cfg.splitThreshold (enrich cwd ctx r).1
      = some (.goOn (enrich cwd ctx r).1) := by
    simp only [logTooLongMessage, hmsgstr]
    rw [if_pos hlen]
  have hser : serializableDict (enrich cwd ctx r).1 = true :=
    serializable_enrich cwd ctx r hc hx ha he
  refine ⟨?_, ?_, ?_, hm3, ?_⟩
  · simp only [filterRecord, hgo, hlong, hser, if_pos]
    cases cfg.disableLogFormatting <;> rfl
  · simp only [filterRecord, hgo, hlong, hser, if_pos]
    cases cfg.disableLogFormatting <;> rfl
  · simp only [filterRecord, hgo, hlong, hser, if_pos]
    cases cfg.disableLogFormatting <;> rfl
  · intro k v hv hf hi hs
    simp only [enrich]
    rw [dictFind_dictUpdate_of_none _ _ _ hs, dictFind_dictUpdate_of_none _ _ _ hi,
        dictFind_dictUpdate_of_none _ _ _ hf]
    exact hv

/-- Counterexample to C3 as stated: with context binding "message" to
'c', a plain no-exception short-message record produces a single
finalized event whose "message" entry is the record message 'm', not
the context value, so the event is not a superset of the context store;
and a record carrying a non-serialisable extra value yields no enriched
event at all (the raw event passes through instead). -/
theorem c3_counterexample :
    (plainRec ['m']).excInfo = none
    ∧ (((plainRec ['m']).msg.length : Nat) : Int) ≤ ({} : Config).splitThreshold
    ∧ ((filterRecord {} cwd0 [("message", Value.str ['c'])] (plainRec ['m'])).bind
        FilterResult.finalDict).bind (fun d => dictFind d "message")
      = some (.str ['m'])
    ∧ dictFind [("message", Value.str ['c'])] "message" = some (.str ['c'])
    ∧ ¬ (Value.str ['m'] = Value.str ['c'])
    ∧ (filterRecord {} cwd0 [] recUnserializable).map FilterResult.ret = some true
    ∧ (filterRecord {} cwd0 [] recUnserializable).bind FilterResult.finalDict = none := by
  refine ⟨rfl, by decide, by decide, by decide, by decide, by decide, by decide⟩

/-- Witness for C3 at a concrete record and context. -/
theorem c3_witness :
    (filterRecord {} cwd0 [("app", Value.str ['a'])] (plainRec ['h', 'i'])).map
        FilterResult.ret = some true
    ∧ dictFind (enrich cwd0 [("app", Value.str ['a'])] (plainRec ['h', 'i'])).1
        MESSAGE_KEY = some (.str ['h', 'i'])
    ∧ dictFind (enrich cwd0 [("app", Value.str ['a'])] (plainRec ['h', 'i'])).1
        "app" = some (.str ['a']) :=
  have h := c3_single_emission {} cwd0 [("app", Value.str ['a'])]
    (plainRec ['h', 'i']) rfl (by decide) (by decide) (by decide) (by decide)
    (by decide)
  ⟨h.2.1, h.2.2.2.1,
   h.2.2.2.2 "app" (Value.str ['a']) (by decide) (by decide) (by decide) (by decide)⟩

theorem splitGo_stop (th : Int) (msg : List Char) (base : Dict) (fuel : Nat)
    (partNr oldIndex : Int) (h : ¬ oldIndex < (msg.length : Int)) :
    splitGo th msg base fuel partNr oldIndex = some [] := by
  cases fuel <;> simp [splitGo, h]

theorem partMarker_len_ge_two (n : Int) : 2 ≤ (partMarker n).length := by
  rw [partMarker, List.length_append]
  simp

theorem splitGo_term (th : Int) (msg : List Char) (base : Dict) :
    ∀ (fuel : Nat) (partNr oldIndex : Int),
      Int.toNat ((msg.length : Int) - oldIndex) ≤ fuel →
      (∀ k : Nat, (k : Int) < (msg.length : Int) - oldIndex →
        ((partMarker (partNr + k + 1)).length : Int) < th) →
      (splitGo th msg base fuel partNr oldIndex).isSome = true := by
  intro fuel
  induction fuel with
  | zero =>
    intro partNr oldIndex hfuel hmark
    have hstop : ¬ oldIndex < (msg.length : Int) := by omega
    rw [splitGo_stop _ _ _ _ _ _ hstop]
    rfl
  | succ f ih =>
    intro partNr oldIndex hfuel hmark
    by_cases hc : oldIndex < (msg.length : Int)
    · have h0 : ((partMarker (partNr + 1)).length : Int) < th := by
        have h00 := hmark 0 (by push_cast; omega)
        simpa using h00
      have hrec := ih (partNr + 1)
        (oldIndex + th - ((partMarker (partNr + 1)).length : Int))
        (by omega)
        (by
          intro k hk
          have hcast : partNr + 1 + (k : Int) + 1
              = partNr + ((k + 1 : Nat) : Int) + 1 := by
            push_cast
            ring
          rw [hcast]
          apply hmark (k + 1)
          push_cast
          omega)
      simp only [splitGo, if_pos hc]
      rcases Option.isSome_iff_exists.mp hrec with ⟨evs, hevs⟩
      rw [hevs]
      rfl
    · rw [splitGo_stop _ _ _ _ _ _ hc]
      rfl

theorem splitGo_zero_threshold_diverges (msg : List Char) (base : Dict)
    (hmsg : msg ≠ []) :
    ∀ (fuel : Nat) (partNr oldIndex : Int), oldIndex ≤ 0 →
      splitGo 0 msg base fuel partNr oldIndex = none := by
  intro fuel
  induction fuel with
  | zero =>
    intro partNr oldIndex hold
    have hp : 0 < msg.length := List.length_pos.mpr hmsg
    have hlt : oldIndex < (msg.length : Int) := by omega
    simp [splitGo, hlt]
  | succ f ih =>
    intro partNr oldIndex hold
    have hp : 0 < msg.length := List.length_pos.mpr hmsg
    have hlt : oldIndex < (msg.length : Int) := by omega
    simp only [splitGo, if_pos hlt]
    have hm : 2 ≤ (partMarker (partNr + 1)).length := partMarker_len_ge_two _
    have hnext : oldIndex + 0 - ((partMarker (partNr + 1)).length : Int) ≤ 0 := by
      omega
    rw [ih (partNr + 1) _ hnext]

/-- C10: the while loop of __log_too_long_message terminates within
message-length many iterations whenever the threshold strictly exceeds
the length of every part marker the run can generate (each iteration
then consumes at least one character), and this precondition is needed:
with threshold 0 — which every marker length exceeds — the slice index
never advances past the message, and the loop runs forever (no fuel
suffices). -/
theorem c10_split_termination :
    (∀ (msg : List Char) (base : Dict) (th n0 : Int),
       (∀ k : Nat, k < msg.length →
         ((partMarker (n0 + (k : Int) + 1)).length : Int) < th) →
       (splitGo th msg base msg.length n0 0).isSome = true)
    ∧ (∀ (fuel : Nat) (n0 : Int),
       splitGo 0 ['a'] [] fuel n0 0 = none) := by
  constructor
  · intro msg base th n0 h
    apply splitGo_term
    · omega
    · intro k hk
      apply h
      omega
  · intro fuel n0
    exact splitGo_zero_threshold_diverges ['a'] [] (by decide) fuel n0 0 le_rfl

/-- Witness for C10: the split loop finishes on a concrete short message
with a generous threshold. -/
theorem c10_witness :
    (splitGo 1000 ['a', 'b'] [] (['a', 'b'] : List Char).length 0 0).isSome = true :=
  c10_split_termination.1 ['a', 'b'] [] 1000 0 (by decide)

theorem splitGo_step (th : Int) (msg : List Char) (base : Dict) (fuel : Nat)
    (partNr oldIndex : Int) (h : oldIndex < (msg.length : Int)) :
    splitGo th msg base (fuel + 1) partNr oldIndex =
      match splitGo th msg base fuel (partNr + 1)
          (oldIndex + th - ((partMarker (partNr + 1)).length : Int)) with
      | some evs => some (insertVal base MESSAGE_KEY
          (.str (partMarker (partNr + 1) ++ pySlice msg oldIndex
            (oldIndex + th - ((partMarker (partNr + 1)).length : Int)))) :: evs)
      | none => none := by
  simp only [splitGo, if_pos h]

/-- C5: with the default split threshold 1000, a plain record whose
message has length 2005 = threshold * 2 + 5 and no pre-existing part
counter is fully handled by the splitting stage (filter returns False):
exactly three part events are emitted, with messages
"1: " ++ m[0:997], "2: " ++ m[997:1994] and "3: " ++ m[1994:2005];
the three bodies concatenate back to the original message exactly, and
every part message has length at most the threshold. -/
theorem c5_long_message_split (m : List Char) (hm : m.length = 2005) :
    (filterRecord {} cwd0 [] (plainRec m)).map FilterResult.ret = some false
    ∧ (filterRecord {} cwd0 [] (plainRec m)).map
        (fun res => res.events.map (fun e => dictFind e MESSAGE_KEY))
      = some [some (.str (partMarker 1 ++ m.take 997)),
              some (.str (partMarker 2 ++ (m.drop 997).take 997)),
              some (.str (partMarker 3 ++ m.drop 1994))]
    ∧ partMarker 1 = "1: ".toList
    ∧ partMarker 2 = "2: ".toList
    ∧ partMarker 3 = "3: ".toList
    ∧ m.take 997 ++ ((m.drop 997).take 997 ++ m.drop 1994) = m
    ∧ (partMarker 1 ++ m.take 997).length ≤ 1000
    ∧ (partMarker 2 ++ (m.drop 997).take 997).length ≤ 1000
    ∧ (partMarker 3 ++ m.drop 1994).length ≤ 1000
    ∧ dictFind (enrich cwd0 [] (plainRec m)).1 PART_KEY = none := by
  have hmI : (m.length : Int) = 2005 := by exact_mod_cast hm
  have p1 : pySlice m 0 997 = m.take 997 := by simp [pySlice, hmI]
  have p2 : pySlice m 997 1994 = (m.drop 997).take 997 := by
    simp [pySlice, hmI]
    rw [List.drop_take]
  have p3 : pySlice m 1994 2991 = m.drop 1994 := by
    simp [pySlice, hmI]
    rw [← hm, List.take_length]
  have hs3 : splitGo 1000 m (baseLit m) 2002 3 2991 = some [] :=
    splitGo_stop _ _ _ _ _ _ (by rw [hmI]; decide)
  have hs2 : splitGo 1000 m (baseLit m) 2003 2 1994 =
      some [insertVal (baseLit m) MESSAGE_KEY
        (.str (partMarker 3 ++ pySlice m 1994 2991))] := by
    rw [show (2003 : Nat) = 2002 + 1 from rfl,
        splitGo_step _ _ _ _ _ _ (by rw [hmI]; decide)]
    norm_num [show (partMarker (3 : Int)).length = 3 from by decide]
    rw [hs3]
  have hs1 : splitGo 1000 m (baseLit m) 2004 1 997 =
      some [insertVal (baseLit m) MESSAGE_KEY
        (.str (partMarker 2 ++ pySlice m 997 1994)),
        insertVal (baseLit m) MESSAGE_KEY
        (.str (partMarker 3 ++ pySlice m 1994 2991))] := by
    rw [show (2004 : Nat) = 2003 + 1 from rfl,
        splitGo_step _ _ _ _ _ _ (by rw [hmI]; decide)]
    norm_num [show (partMarker (2 : Int)).length = 3 from by decide]
    rw [hs2]
  have hs0 : splitGo 1000 m (baseLit m) 2005 0 0 =
      some [insertVal (baseLit m) MESSAGE_KEY
        (.str (partMarker 1 ++ pySlice m 0 997)),
        insertVal (baseLit m) MESSAGE_KEY
        (.str (partMarker 2 ++ pySlice m 997 1994)),
        insertVal (baseLit m) MESSAGE_KEY
        (.str (partMarker 3 ++ pySlice m 1994 2991))] := by
    rw [show (2005 : Nat) = 2004 + 1 from rfl,
        splitGo_step _ _ _ _ _ _ (by rw [hmI]; decide)]
    norm_num [show (partMarker (1 : Int)).length = 3 from by decide]
    rw [hs1]
  rw [p1, p2, p3] at hs0
  have hlong : logTooLongMessage 1000 (mLit m) =
      some (.handled
        [insertVal (baseLit m) MESSAGE_KEY (.str (partMarker 1 ++ m.take 997)),
         insertVal (baseLit m) MESSAGE_KEY (.str (partMarker 2 ++ (m.drop 997).take 997)),
         insertVal (baseLit m) MESSAGE_KEY (.str (partMarker 3 ++ m.drop 1994))]) := by
    have hgm : getMsgStr (mLit m) = m := rfl
    have hpn : getPartNr (mLit m) = 0 := rfl
    have hrk : removeKey (mLit m) MESSAGE_KEY = baseLit m := rfl
    simp only [logTooLongMessage, hgm, hpn, hrk]
    rw [if_neg (by rw [hmI]; decide), hm, hs0]
  have henr : enrich cwd0 [] (plainRec m) = (mLit m, plainRec m) := rfl
  have hgo : logAvailableExecInfo ({} : Config).exTraceAsNewMessage (mLit m)
      (plainRec m) = .goOn (mLit m) (plainRec m) := rfl
  have hcat : (m.drop 997).take 997 ++ m.drop 1994 = m.drop 997 := by
    rw [show m.drop 1994 = (m.drop 997).drop 997 from
          (by rw [List.drop_drop] : (m.drop 997).drop 997 = m.drop 1994).symm]
    exact List.take_append_drop _ _
  refine ⟨?_, ?_, by decide, by decide, by decide, ?_, ?_, ?_, ?_, rfl⟩
  · simp only [filterRecord, henr, hgo, hlong]
    rfl
  · simp only [filterRecord, henr, hgo, hlong]
    rfl
  · rw [hcat, List.take_append_drop]
  · simp only [List.length_append, List.length_take, hm,
      show (partMarker (1 : Int)).length = 3 from by decide]
    omega
  · simp only [List.length_append, List.length_take, List.length_drop, hm,
      show (partMarker (2 : Int)).length = 3 from by decide]
    omega
  · simp only [List.length_append, List.length_drop, hm,
      show (partMarker (3 : Int)).length = 3 from by decide]
    omega

/-- Witness for C5 at a concrete 2005-character message. -/
theorem c5_witness :
    (filterRecord {} cwd0 [] (plainRec (List.replicate 2005 'a'))).map
      FilterResult.ret = some false :=
  (c5_long_message_split (List.replicate 2005 'a') (by rw [List.length_replicate])).1
